import Mathlib

/-!
# Quick Access preference tracking and ranking (`public/js/main.js`)

A shallow embedding of the `QuickAccess` object of `public/js/main.js`:
the compiled-in service catalog, the preference record, visit tracking,
favourite toggling and the ranking computed by `getQuickAccessItems`.

Modelling conventions.

* JavaScript strings are Lean `String`s. All patterns searched for are ASCII,
  so substring search on code points agrees with search on UTF-16 code units.
* Visit counters are natural numbers (the code only ever stores `(v || 0) + 1`);
  the loss of precision of doubles above `2^53` is outside the model.
* A plain JavaScript object with string keys is a `JsObject`: its own
  properties in insertion order, no key twice.
* The preference record is threaded explicitly: every method that assigns to
  `this.userPreferences` becomes a function returning the new record. Writes to
  `localStorage`, notifications and DOM rendering do not touch the record and
  are left out.
* What the environment answers is an argument of the method that asks: the
  location and the time for `trackPageVisit`, the element found for
  `updateQuickAccessDisplay`, the answer of the dialog for `resetQuickAccess`,
  and the outcome of `localStorage.getItem` and `JSON.parse` for
  `loadUserPreferences`.
* `loadUserPreferences` can store values of any shape, so it works on the
  record as an untyped JavaScript object (`JsObject Json`);
  `UserPreferences.toJs` gives the object of a typed record.
-/

namespace QuickAccess

/-! ## JavaScript values used by the code -/

/-- Own properties of a plain JavaScript object whose keys are strings:
the entries in insertion order, with no key occurring twice. -/
structure JsObject (α : Type) where
  entries : List (String × α)
  nodupKeys : (entries.map Prod.fst).Nodup

namespace JsObject

variable {α : Type}

/-- The object literal `{}`. -/
def empty : JsObject α := ⟨[], List.nodup_nil⟩

/-- Property read on the entry list: the value stored under `k`, if any. -/
def getEntries (k : String) : List (String × α) → Option α
  | [] => none
  | (k', v) :: rest => if k' = k then some v else getEntries k rest

/-- Property write on the entry list: an existing key keeps its position and
gets the new value, a new key is appended. -/
def setEntries (k : String) (v : α) : List (String × α) → List (String × α)
  | [] => [(k, v)]
  | (k', v') :: rest =>
    if k' = k then (k', v) :: rest else (k', v') :: setEntries k v rest

/-- The read `o[k]`: `none` stands for `undefined`. -/
def get (o : JsObject α) (k : String) : Option α := getEntries k o.entries

/-- The assignment `o[k] = v`. -/
def set (o : JsObject α) (k : String) (v : α) : JsObject α :=
  ⟨setEntries k v o.entries, by
    have keys_eq : ∀ l : List (String × α), (setEntries k v l).map Prod.fst =
        if k ∈ l.map Prod.fst then l.map Prod.fst else l.map Prod.fst ++ [k] := by
      intro l
      induction l with
      | nil => simp [setEntries]
      | cons hd tl ih =>
        obtain ⟨k', v'⟩ := hd
        by_cases h : k' = k
        · simp [setEntries, h]
        · have h' : ¬ k = k' := fun e => h e.symm
          simp only [setEntries, h, if_false, List.map_cons, ih, List.mem_cons, h', false_or]
          split <;> simp
    rw [keys_eq]
    split
    · exact o.nodupKeys
    · rename_i hk
      exact List.Nodup.append o.nodupKeys (List.nodup_singleton k) (by simpa using hk)⟩

/-- The array `Object.keys(o)`. -/
def keys (o : JsObject α) : List String := o.entries.map Prod.fst

end JsObject

/-- The expression `v || 0` for a counter read from an object: `undefined`
and `0` are the falsy cases and both give `0`. -/
def orZero : Option Nat → Nat
  | none => 0
  | some v => if v = 0 then 0 else v

/-- Does `t` start with `pat`? -/
def startsWithChars : List Char → List Char → Bool
  | [], _ => true
  | _ :: _, [] => false
  | c :: cs, d :: ds => c == d && startsWithChars cs ds

/-- Does `pat` occur at some position of `t`? -/
def includesChars (pat : List Char) : List Char → Bool
  | [] => startsWithChars pat []
  | c :: cs => startsWithChars pat (c :: cs) || includesChars pat cs

/-- The method `String.prototype.includes`. -/
def includes (url pat : String) : Bool := includesChars pat.toList url.toList

/-- The method `Array.prototype.indexOf`: position of the first occurrence,
`-1` when there is none. -/
def arrayIndexOf (xs : List String) (x : String) : Int :=
  if x ∈ xs then (xs.indexOf x : Int) else -1

/-- The method `Array.prototype.sort` with a comparator. The sort is stable
and `cmp a b ≤ 0` lets `a` stay in front of `b`; for a comparator that is a
total preorder (as the one used here) the stable result is unique, and it is
the one insertion sort computes. -/
def arraySort {α : Type} (cmp : α → α → Int) (xs : List α) : List α :=
  xs.insertionSort (fun a b => cmp a b ≤ 0)

/-! ## Data model -/

/-- One element of `availableServices`. -/
structure Service where
  id : String
  name : String
  description : String
  url : String
  count : Nat
  deriving DecidableEq, Repr

/-- The object `userPreferences`. -/
structure UserPreferences where
  favorites : List String
  visitCounts : JsObject Nat
  lastVisited : JsObject String
  showQuickAccess : Bool

/-- The array `availableServices`. -/
def availableServices : List Service :=
  [ { id := "food-pantry", name := "Food & Pantry",
      description := "Find local food banks and meal programs",
      url := "pages/services/walkin-services.html?category=food", count := 17 },
    { id := "housing-shelter", name := "Housing & Shelter",
      description := "Emergency and transitional housing options",
      url := "pages/services/emergency-shelter.html", count := 12 },
    { id := "healthcare", name := "Healthcare",
      description := "Medical, dental, and mental health services",
      url := "pages/services/appointment-services.html?category=health", count := 8 },
    { id := "education", name := "Education",
      description := "Classes, tutoring, and skill development",
      url := "pages/services/education-classes.html", count := 5 },
    { id := "legal-services", name := "Legal Services",
      description := "Free legal consultation and assistance",
      url := "pages/services/appointment-services.html?category=legal", count := 3 },
    { id := "support-groups", name := "Support Groups",
      description := "AA, counseling, and peer support meetings",
      url := "pages/services/group-meetings.html", count := 11 } ]

/-- The initial value of `userPreferences`. -/
def defaultPreferences : UserPreferences :=
  { favorites := [], visitCounts := JsObject.empty, lastVisited := JsObject.empty,
    showQuickAccess := false }

/-! ## Operations -/

/-- The method `getPageKey`: the first of six fixed page keys that occurs in
the URL, `none` (for `null`) when none does. -/
def getPageKey (url : String) : Option String :=
  if includes url "appointment-services" then some "appointment-services"
  else if includes url "walkin-services" then some "walkin-services"
  else if includes url "emergency-shelter" then some "emergency-shelter"
  else if includes url "group-meetings" then some "group-meetings"
  else if includes url "education-classes" then some "education-classes"
  else if includes url "service-detail" then some "service-detail"
  else none

/-- The method `trackPageVisit`, with `window.location.pathname` and
`new Date().toISOString()` as the arguments `currentPage` and `now`. -/
def trackPageVisit (p : UserPreferences) (currentPage now : String) : UserPreferences :=
  match getPageKey currentPage with
  | some pageKey =>
    let visitCounts := p.visitCounts.set pageKey (orZero (p.visitCounts.get pageKey) + 1)
    let lastVisited := p.lastVisited.set pageKey now
    { favorites := p.favorites
      visitCounts := visitCounts
      lastVisited := lastVisited
      showQuickAccess := if visitCounts.keys.length ≥ 3 then true else p.showQuickAccess }
  | none => p

/-- The method `getServicePageKey`: the fixed table `mapping`, and the id
itself for an id the table lacks. (Every call in the code passes a catalog id;
names inherited from `Object.prototype` are outside the model.) -/
def getServicePageKey (serviceId : String) : String :=
  if serviceId = "food-pantry" then "walkin-services"
  else if serviceId = "housing-shelter" then "emergency-shelter"
  else if serviceId = "healthcare" then "appointment-services"
  else if serviceId = "education" then "education-classes"
  else if serviceId = "legal-services" then "appointment-services"
  else if serviceId = "support-groups" then "group-meetings"
  else serviceId

/-- The expression `visitCounts[getServicePageKey(service.id)] || 0`, which the
filter and the comparator of `getQuickAccessItems` both evaluate. -/
def visitCountOf (p : UserPreferences) (service : Service) : Nat :=
  orZero (p.visitCounts.get (getServicePageKey service.id))

/-- The constant `favorites` of `getQuickAccessItems`. -/
def favoriteItems (p : UserPreferences) : List Service :=
  availableServices.filter (fun service => p.favorites.contains service.id)

/-- The comparator passed to `sort` in `getQuickAccessItems`. -/
def compareVisits (p : UserPreferences) (a b : Service) : Int :=
  (visitCountOf p b : Int) - (visitCountOf p a : Int)

/-- The constant `frequent` of `getQuickAccessItems`. -/
def frequentItems (p : UserPreferences) : List Service :=
  arraySort (compareVisits p)
    (availableServices.filter (fun service =>
      decide (visitCountOf p service ≥ 2) && !p.favorites.contains service.id))

/-- The method `getQuickAccessItems`. -/
def getQuickAccessItems (p : UserPreferences) : List Service :=
  (favoriteItems p ++ frequentItems p).take 6

/-- The method `toggleFavorite`. -/
def toggleFavorite (p : UserPreferences) (serviceId : String) : UserPreferences :=
  let index := arrayIndexOf p.favorites serviceId
  if index > -1 then
    { p with favorites := p.favorites.eraseIdx index.toNat }
  else
    { p with favorites := p.favorites ++ [serviceId] }

/-- A sequence of `trackPageVisit` calls, one per `(currentPage, now)` pair. -/
def trackPageVisits (p : UserPreferences) (visits : List (String × String)) : UserPreferences :=
  visits.foldl (fun q v => trackPageVisit q v.1 v.2) p

/-- The method `shouldShowQuickAccess`. -/
def shouldShowQuickAccess (p : UserPreferences) : Bool :=
  decide (p.favorites.length > 0) || decide (p.visitCounts.keys.length > 0)

/-- The method `updateQuickAccessDisplay`. The argument is what
`document.getElementById('quickAccessSection')` finds: `none` when there is no
such element, otherwise the element's `style.display`; the result is the same
after the call. (Rendering the items does not touch the preference record.) -/
def updateQuickAccessDisplay (p : UserPreferences) (quickAccessSection : Option String) :
    Option String :=
  match quickAccessSection with
  | none => none
  | some _ =>
    if p.showQuickAccess && shouldShowQuickAccess p then some "block" else some "none"

/-- The method `resetQuickAccess`; `confirmed` is the answer of the `confirm`
dialog the method opens first. -/
def resetQuickAccess (p : UserPreferences) (confirmed : Bool) : UserPreferences :=
  if confirmed then
    { favorites := [], visitCounts := JsObject.empty, lastVisited := JsObject.empty,
      showQuickAccess := false }
  else p

/-- The six page keys `getPageKey` can return. -/
def pageKeys : List String :=
  ["appointment-services", "walkin-services", "emergency-shelter", "group-meetings",
   "education-classes", "service-detail"]

/-! ## Persisted record: `loadUserPreferences` -/

/-- A value `JSON.parse` can return. Numbers are the integers; numbers with a
fraction are outside the model. -/
inductive Json where
  | null : Json
  | bool (b : Bool) : Json
  | num (n : Int) : Json
  | str (s : String) : Json
  | arr (items : List Json) : Json
  | obj (members : List (String × Json)) : Json

/-- The object with the given members: a key written twice keeps its first
position and its last value. -/
def JsObject.ofMembers {α : Type} (members : List (String × α)) : JsObject α :=
  members.foldl (fun o kv => o.set kv.1 kv.2) JsObject.empty

/-- The elements of an array (or the characters of a string) under their
indices "0", "1", ... as property names. -/
def indexed {α : Type} (xs : List α) : List (String × α) :=
  xs.enum.map (fun ix => (toString ix.1, ix.2))

/-- The own enumerable properties of a parsed value, which are what an object
spread `...value` copies: none for `null`, a boolean or a number, the indexed
characters of a string, the indexed elements of an array, the members of an
object. (The order of the keys plays no role in what follows; the characters
of a string are its code points.) -/
def Json.ownProperties : Json → JsObject Json
  | .null => JsObject.empty
  | .bool _ => JsObject.empty
  | .num _ => JsObject.empty
  | .str s => JsObject.ofMembers (indexed (s.toList.map (fun c => Json.str c.toString)))
  | .arr items => JsObject.ofMembers (indexed items)
  | .obj members => JsObject.ofMembers members

/-- The object spread `{ ...a, ...b }`: the properties of `a`, overwritten and
extended by those of `b`. -/
def spread (a b : JsObject Json) : JsObject Json :=
  b.entries.foldl (fun o kv => o.set kv.1 kv.2) a

/-- The preference record as the JavaScript object `userPreferences` holds it. -/
def UserPreferences.toJs (p : UserPreferences) : JsObject Json :=
  (((JsObject.empty.set "favorites" (Json.arr (p.favorites.map Json.str))).set
    "visitCounts" (Json.obj (p.visitCounts.entries.map (fun kv => (kv.1, Json.num kv.2))))).set
    "lastVisited" (Json.obj (p.lastVisited.entries.map (fun kv => (kv.1, Json.str kv.2))))).set
    "showQuickAccess" (Json.bool p.showQuickAccess)

/-- What `loadUserPreferences` meets when it reads the key
`quickAccessPreferences`: `localStorage.getItem` throws, or returns `null`, or
returns a text on which `JSON.parse` throws, or returns a text that
`JSON.parse` turns into a value. -/
inductive Persisted where
  | unavailable : Persisted
  | missing : Persisted
  | unparsable (saved : String) : Persisted
  | parsed (saved : String) (value : Json) : Persisted

/-- The `try` block of `loadUserPreferences`: the new value of
`userPreferences`, or the exception thrown. An empty text is falsy and is
skipped by `if (saved)`. -/
def tryLoadUserPreferences (current : JsObject Json) : Persisted → Except String (JsObject Json)
  | .unavailable => Except.error "SecurityError"
  | .missing => Except.ok current
  | .unparsable saved =>
    if saved = "" then Except.ok current else Except.error "SyntaxError"
  | .parsed saved value =>
    if saved = "" then Except.ok current else Except.ok (spread current value.ownProperties)

/-- The method `loadUserPreferences`: the `catch` clause logs the exception
and leaves `userPreferences` as it was. -/
def loadUserPreferences (current : JsObject Json) (persisted : Persisted) :
    Except String (JsObject Json) :=
  match tryLoadUserPreferences current persisted with
  | Except.ok loaded => Except.ok loaded
  | Except.error _ => Except.ok current

/-- Is the member list made of strings only? -/
def allStrings (items : List Json) : Bool :=
  items.all (fun x => match x with
    | Json.str _ => true
    | _ => false)

/-- Is the member list made of non-negative integers only? -/
def allCounters (items : List Json) : Bool :=
  items.all (fun x => match x with
    | Json.num n => decide (0 ≤ n)
    | _ => false)

/-- The shape of a preference record as the data model of the specification
words it: `favorites` a list of identifiers, `visitCounts` a mapping to
non-negative integers, `lastVisited` a mapping to timestamps, the display flag
a boolean. The code contains no such check; the predicate only serves to say
which persisted values are malformed. -/
def conformsToShape : Json → Bool
  | .obj members =>
    (match (JsObject.ofMembers members).get "favorites" with
      | some (Json.arr items) => allStrings items
      | _ => false) &&
    (match (JsObject.ofMembers members).get "visitCounts" with
      | some (Json.obj counters) => allCounters (counters.map Prod.snd)
      | _ => false) &&
    (match (JsObject.ofMembers members).get "lastVisited" with
      | some (Json.obj stamps) => allStrings (stamps.map Prod.snd)
      | _ => false) &&
    (match (JsObject.ofMembers members).get "showQuickAccess" with
      | some (Json.bool _) => true
      | _ => false)
  | _ => false

/-- A persisted value that parses and is malformed: `favorites` is a string,
not a list, and a visit counter is negative. -/
def malformedValue : Json :=
  Json.obj
    [("favorites", Json.str "food-pantry"),
     ("visitCounts", Json.obj [("walkin-services", Json.num (-2))]),
     ("lastVisited", Json.obj []),
     ("showQuickAccess", Json.bool true)]

/-- The text whose parse is `malformedValue`. -/
def malformedSaved : String :=
  "\x7b\"favorites\":\"food-pantry\",\"visitCounts\":\x7b\"walkin-services\":-2\x7d," ++
    "\"lastVisited\":\x7b\x7d,\"showQuickAccess\":true\x7d"

/-! ## Invariants of the preference record -/

/-- Every element of `favorites` is the id of an entry of `availableServices`. -/
def favoritesInCatalog (p : UserPreferences) : Bool :=
  p.favorites.all (fun x => (availableServices.map Service.id).contains x)

/-- Every key of `visitCounts` and of `lastVisited` is one of the six page keys. -/
def keysArePageKeys (p : UserPreferences) : Bool :=
  p.visitCounts.keys.all (fun k => pageKeys.contains k) &&
    p.lastVisited.keys.all (fun k => pageKeys.contains k)

end QuickAccess

namespace QuickAccess

/-! ## Auxiliary facts -/

theorem JsObject.getEntries_setEntries_same {α : Type} (k : String) (v : α)
    (l : List (String × α)) : JsObject.getEntries k (JsObject.setEntries k v l) = some v := by
  induction l with
  | nil => simp [JsObject.setEntries, JsObject.getEntries]
  | cons hd tl ih =>
    obtain ⟨k', v'⟩ := hd
    by_cases h : k' = k
    · simp [JsObject.setEntries, JsObject.getEntries, h]
    · simp [JsObject.setEntries, JsObject.getEntries, h, ih]

theorem JsObject.get_set_same {α : Type} (o : JsObject α) (k : String) (v : α) :
    (o.set k v).get k = some v :=
  JsObject.getEntries_setEntries_same k v o.entries

theorem JsObject.nodup_keys {α : Type} (o : JsObject α) : o.keys.Nodup := o.nodupKeys

theorem orZero_eq (v : Option Nat) : orZero v = v.getD 0 := by
  cases v with
  | none => rfl
  | some n => by_cases h : n = 0 <;> simp [orZero, h]

theorem availableServices_ids_nodup : (availableServices.map Service.id).Nodup := by
  decide

theorem availableServices_nodup : availableServices.Nodup :=
  List.Nodup.of_map _ availableServices_ids_nodup

theorem mem_favoriteItems {p : UserPreferences} {s : Service} :
    s ∈ favoriteItems p ↔ s ∈ availableServices ∧ s.id ∈ p.favorites := by
  simp [favoriteItems, List.mem_filter]

theorem frequentItems_perm (p : UserPreferences) :
    (frequentItems p).Perm (availableServices.filter (fun service =>
      decide (visitCountOf p service ≥ 2) && !p.favorites.contains service.id)) :=
  List.perm_insertionSort _ _

theorem mem_frequentItems {p : UserPreferences} {s : Service} :
    s ∈ frequentItems p ↔
      s ∈ availableServices ∧ 2 ≤ visitCountOf p s ∧ s.id ∉ p.favorites := by
  rw [(frequentItems_perm p).mem_iff]
  simp [List.mem_filter]

theorem sublist_frequentItems {p : UserPreferences} {a b : Service}
    (hab : visitCountOf p b ≤ visitCountOf p a)
    (ha : a ∈ frequentItems p) (hb : b ∈ frequentItems p)
    (h : [a, b].Sublist availableServices) : [a, b].Sublist (frequentItems p) := by
  have ha' := mem_frequentItems.1 ha
  have hb' := mem_frequentItems.1 hb
  have hf := h.filter (fun service =>
      decide (visitCountOf p service ≥ 2) && !p.favorites.contains service.id)
  have hpair : [a, b].filter (fun service =>
      decide (visitCountOf p service ≥ 2) && !p.favorites.contains service.id) = [a, b] := by
    simp [List.filter, ha'.2.1, ha'.2.2, hb'.2.1, hb'.2.2]
  rw [hpair] at hf
  refine List.pair_sublist_insertionSort ?_ hf
  show compareVisits p a b ≤ 0
  unfold compareVisits
  omega

theorem favorite_frequent_nodup (p : UserPreferences) :
    (favoriteItems p ++ frequentItems p).Nodup := by
  refine List.Nodup.append ?_ ?_ ?_
  · exact availableServices_nodup.filter _
  · exact (frequentItems_perm p).nodup_iff.2 (availableServices_nodup.filter _)
  · intro s hs hq
    exact (mem_frequentItems.1 hq).2.2 (mem_favoriteItems.1 hs).2

theorem length_filter_add_le {α : Type} (f g : α → Bool) (l : List α)
    (h : ∀ x ∈ l, f x = true → g x = false) :
    (l.filter f).length + (l.filter g).length ≤ l.length := by
  induction l with
  | nil => simp
  | cons a t ih =>
    have iht := ih (fun x hx => h x (List.mem_cons_of_mem _ hx))
    have ha := h a (List.mem_cons_self _ _)
    cases hf : f a <;> cases hg : g a <;> simp_all <;> omega

theorem favorite_frequent_length (p : UserPreferences) :
    (favoriteItems p ++ frequentItems p).length ≤ 6 := by
  rw [List.length_append, (frequentItems_perm p).length_eq]
  have h := length_filter_add_le (fun service : Service => p.favorites.contains service.id)
    (fun service => decide (visitCountOf p service ≥ 2) && !p.favorites.contains service.id)
    availableServices (by
      intro x _ hx
      have hx' : x.id ∈ p.favorites := by simpa using hx
      simp [hx'])
  simpa [favoriteItems, availableServices] using h

theorem getQuickAccessItems_eq_append (p : UserPreferences) :
    getQuickAccessItems p = favoriteItems p ++ frequentItems p :=
  List.take_of_length_le (favorite_frequent_length p)

theorem toggleFavorite_favorites (p : UserPreferences) (x : String) :
    (toggleFavorite p x).favorites =
      if x ∈ p.favorites then p.favorites.erase x else p.favorites ++ [x] := by
  unfold toggleFavorite arrayIndexOf
  by_cases h : x ∈ p.favorites
  · have hpos : ((List.indexOf x p.favorites : ℕ) : Int) > -1 := by omega
    simp only [h, if_true, hpos, Int.toNat_ofNat, List.eraseIdx_indexOf_eq_erase]
  · simp [h]

theorem toggleFavorite_twice_favorites (p : UserPreferences) (x : String)
    (h : p.favorites.count x ≤ 1) :
    (toggleFavorite (toggleFavorite p x) x).favorites =
      if x ∈ p.favorites then p.favorites.erase x ++ [x] else p.favorites := by
  rw [toggleFavorite_favorites (toggleFavorite p x) x, toggleFavorite_favorites p x]
  by_cases hx : x ∈ p.favorites
  · have hnot : x ∉ p.favorites.erase x := by
      rw [← List.count_eq_zero, List.count_erase_self]
      omega
    rw [if_pos hx, if_neg hnot, if_pos hx]
  · have hin : x ∈ p.favorites ++ [x] := by simp
    have hres : (p.favorites ++ [x]).erase x = p.favorites := by
      rw [List.erase_append_right _ hx]
      simp
    rw [if_neg hx, if_pos hin, hres, if_neg hx]

theorem toggleFavorite_twice_favorites_perm (p : UserPreferences) (x : String)
    (h : p.favorites.count x ≤ 1) :
    (toggleFavorite (toggleFavorite p x) x).favorites.Perm p.favorites := by
  rw [toggleFavorite_twice_favorites p x h]
  split
  · rename_i hx
    exact (List.perm_append_singleton x _).trans (List.perm_cons_erase hx).symm
  · exact List.Perm.refl _

theorem toggleFavorite_mem_of_count_le (p : UserPreferences) (x : String)
    (h : p.favorites.count x ≤ 1) :
    (x ∈ (toggleFavorite p x).favorites ↔ x ∉ p.favorites) ∧
      (∀ y : String, y ≠ x → (y ∈ (toggleFavorite p x).favorites ↔ y ∈ p.favorites)) := by
  rw [toggleFavorite_favorites p x]
  by_cases hx : x ∈ p.favorites
  · have hnot : x ∉ p.favorites.erase x := by
      rw [← List.count_eq_zero, List.count_erase_self]
      omega
    rw [if_pos hx]
    exact ⟨⟨fun hm => absurd hm hnot, fun hn => absurd hx hn⟩,
      fun y hy => List.mem_erase_of_ne hy⟩
  · rw [if_neg hx]
    refine ⟨⟨fun _ => hx, fun _ => by simp⟩, fun y hy => ?_⟩
    simp [hy]

theorem trackPageVisit_showQuickAccess (p : UserPreferences) (currentPage now : String)
    (h : p.showQuickAccess = true) : (trackPageVisit p currentPage now).showQuickAccess = true := by
  unfold trackPageVisit
  split
  · simp [h]
  · exact h

/-! ## Ranking: `getQuickAccessItems` -/

/-- C1: for every preference record, `getQuickAccessItems` returns the first 6
elements of `F ++ Q`, where `F` is the catalog entries whose id is in
`favorites` (in catalog order) and `Q` is the frequent tier, none of whose
entries is a favourite; in the result no non-favourite entry stands in front of
a favourite one, and the result has at most 6 entries. -/
theorem getQuickAccessItems_take_six (p : UserPreferences) :
    getQuickAccessItems p =
        (availableServices.filter (fun s => decide (s.id ∈ p.favorites)) ++
          frequentItems p).take 6 ∧
      (∀ s ∈ frequentItems p, s.id ∉ p.favorites) ∧
      (getQuickAccessItems p).Pairwise (fun a b => b.id ∈ p.favorites → a.id ∈ p.favorites) ∧
      (getQuickAccessItems p).length ≤ 6 := by
  refine ⟨?_, fun s hs => (mem_frequentItems.1 hs).2.2, ?_, ?_⟩
  · simp [getQuickAccessItems, favoriteItems]
  · refine List.Pairwise.sublist (List.take_sublist 6 _) ?_
    rw [List.pairwise_append]
    refine ⟨?_, ?_, ?_⟩
    · exact List.pairwise_of_forall_mem_list (fun a ha _ _ _ => (mem_favoriteItems.1 ha).2)
    · exact List.pairwise_of_forall_mem_list
        (fun _ _ b hb hfav => absurd hfav (mem_frequentItems.1 hb).2.2)
    · intro a ha _ _ _
      exact (mem_favoriteItems.1 ha).2
  · simp [getQuickAccessItems, List.length_take]

/-- C2: for every preference record, the frequent tier of `getQuickAccessItems`
holds exactly the catalog entries that are not favourites and whose mapped page
key has visit count at least 2 (each once), it is ordered by visit count
descending, and two of its entries with equal visit counts stand in their
catalog order. -/
theorem frequentItems_spec (p : UserPreferences) :
    (frequentItems p).Perm (availableServices.filter (fun s =>
        decide (s.id ∉ p.favorites ∧
          2 ≤ orZero (p.visitCounts.get (getServicePageKey s.id))))) ∧
      (frequentItems p).Nodup ∧
      (frequentItems p).Pairwise (fun a b =>
        orZero (p.visitCounts.get (getServicePageKey b.id)) ≤
          orZero (p.visitCounts.get (getServicePageKey a.id))) ∧
      (∀ a b, a ∈ frequentItems p → b ∈ frequentItems p →
        orZero (p.visitCounts.get (getServicePageKey a.id)) =
          orZero (p.visitCounts.get (getServicePageKey b.id)) →
        [a, b].Sublist availableServices → [a, b].Sublist (frequentItems p)) := by
  refine ⟨?_, ?_, ?_, ?_⟩
  · refine (frequentItems_perm p).trans (List.Perm.of_eq ?_)
    refine List.filter_congr (fun s _ => ?_)
    simp [visitCountOf, Bool.and_comm]
  · exact (frequentItems_perm p).nodup_iff.2 (availableServices_nodup.filter _)
  · haveI : IsTotal Service (fun a b => compareVisits p a b ≤ 0) :=
      ⟨fun a b => by unfold compareVisits; omega⟩
    haveI : IsTrans Service (fun a b => compareVisits p a b ≤ 0) :=
      ⟨fun a b c hab hbc => by unfold compareVisits at *; omega⟩
    have h := List.sorted_insertionSort (fun a b => compareVisits p a b ≤ 0)
      (availableServices.filter (fun service =>
        decide (visitCountOf p service ≥ 2) && !p.favorites.contains service.id))
    refine List.Pairwise.imp ?_ h
    intro a b hab
    have hab' : compareVisits p a b ≤ 0 := hab
    unfold compareVisits visitCountOf at hab'
    omega
  · intro a b ha hb hab h
    exact sublist_frequentItems (le_of_eq hab.symm) ha hb h

/-- C3: for every preference record the list returned by `getQuickAccessItems`
holds no catalog entry (no id) twice; with favorites = ["food-pantry"] and
visitCounts = {"walkin-services": 5} the result is the single entry
"food-pantry", which is its first element. -/
theorem getQuickAccessItems_no_duplicates :
    (∀ p : UserPreferences, ((getQuickAccessItems p).map Service.id).Nodup) ∧
      (getQuickAccessItems
          { favorites := ["food-pantry"]
            visitCounts := JsObject.empty.set "walkin-services" 5
            lastVisited := JsObject.empty
            showQuickAccess := true }).map Service.id = ["food-pantry"] ∧
      ((getQuickAccessItems
          { favorites := ["food-pantry"]
            visitCounts := JsObject.empty.set "walkin-services" 5
            lastVisited := JsObject.empty
            showQuickAccess := true }).head?).map Service.id = some "food-pantry" := by
  refine ⟨fun p => ?_, by decide, by decide⟩
  rw [getQuickAccessItems_eq_append]
  refine List.Nodup.map_on ?_ (favorite_frequent_nodup p)
  have hmem : ∀ s ∈ favoriteItems p ++ frequentItems p, s ∈ availableServices := by
    intro s hs
    rcases List.mem_append.1 hs with h | h
    · exact (mem_favoriteItems.1 h).1
    · exact (mem_frequentItems.1 h).1
  intro x hx y hy hxy
  exact List.inj_on_of_nodup_map availableServices_ids_nodup (hmem x hx) (hmem y hy) hxy

/-- C4: "healthcare" and "legal-services" both map to the page key
"appointment-services"; for every preference record in which neither is a
favourite and visitCounts["appointment-services"] is at least 2,
`getQuickAccessItems` contains both entries, their effective visit counts are
equal, and "healthcare" stands before "legal-services". -/
theorem healthcare_before_legal (p : UserPreferences) (n : Nat)
    (hh : "healthcare" ∉ p.favorites) (hl : "legal-services" ∉ p.favorites)
    (hn : p.visitCounts.get "appointment-services" = some n) (h2 : 2 ≤ n) :
    getServicePageKey "healthcare" = "appointment-services" ∧
      getServicePageKey "legal-services" = "appointment-services" ∧
      ∃ a b : Service, a.id = "healthcare" ∧ b.id = "legal-services" ∧
        a ∈ getQuickAccessItems p ∧ b ∈ getQuickAccessItems p ∧
        visitCountOf p a = n ∧ visitCountOf p b = n ∧
        [a, b].Sublist (getQuickAccessItems p) := by
  refine ⟨by decide, by decide, ?_⟩
  have hn0 : orZero (some n) = n := by rw [orZero_eq]; rfl
  have hca : visitCountOf p
      { id := "healthcare", name := "Healthcare",
        description := "Medical, dental, and mental health services",
        url := "pages/services/appointment-services.html?category=health", count := 8 } = n := by
    show orZero (p.visitCounts.get (getServicePageKey "healthcare")) = n
    rw [show getServicePageKey "healthcare" = "appointment-services" by decide, hn, hn0]
  have hcb : visitCountOf p
      { id := "legal-services", name := "Legal Services",
        description := "Free legal consultation and assistance",
        url := "pages/services/appointment-services.html?category=legal", count := 3 } = n := by
    show orZero (p.visitCounts.get (getServicePageKey "legal-services")) = n
    rw [show getServicePageKey "legal-services" = "appointment-services" by decide, hn, hn0]
  have ha : Service.mk "healthcare" "Healthcare" "Medical, dental, and mental health services"
      "pages/services/appointment-services.html?category=health" 8 ∈ frequentItems p :=
    mem_frequentItems.2 ⟨by decide, by rw [hca]; exact h2, hh⟩
  have hb : Service.mk "legal-services" "Legal Services" "Free legal consultation and assistance"
      "pages/services/appointment-services.html?category=legal" 3 ∈ frequentItems p :=
    mem_frequentItems.2 ⟨by decide, by rw [hcb]; exact h2, hl⟩
  have hsub := sublist_frequentItems (by rw [hca, hcb]) ha hb (by decide)
  refine ⟨_, _, rfl, rfl, ?_, ?_, hca, hcb, ?_⟩
  · rw [getQuickAccessItems_eq_append]; exact List.mem_append_right _ ha
  · rw [getQuickAccessItems_eq_append]; exact List.mem_append_right _ hb
  · rw [getQuickAccessItems_eq_append]
    exact hsub.trans (List.sublist_append_right _ _)

theorem healthcare_before_legal_witness :
    ∃ a b : Service, a.id = "healthcare" ∧ b.id = "legal-services" ∧
      a ∈ getQuickAccessItems
        { favorites := [], visitCounts := JsObject.empty.set "appointment-services" 3,
          lastVisited := JsObject.empty, showQuickAccess := false } ∧
      b ∈ getQuickAccessItems
        { favorites := [], visitCounts := JsObject.empty.set "appointment-services" 3,
          lastVisited := JsObject.empty, showQuickAccess := false } ∧
      visitCountOf
        { favorites := [], visitCounts := JsObject.empty.set "appointment-services" 3,
          lastVisited := JsObject.empty, showQuickAccess := false } a = 3 ∧
      visitCountOf
        { favorites := [], visitCounts := JsObject.empty.set "appointment-services" 3,
          lastVisited := JsObject.empty, showQuickAccess := false } b = 3 ∧
      [a, b].Sublist (getQuickAccessItems
        { favorites := [], visitCounts := JsObject.empty.set "appointment-services" 3,
          lastVisited := JsObject.empty, showQuickAccess := false }) :=
  (healthcare_before_legal
    { favorites := [], visitCounts := JsObject.empty.set "appointment-services" 3,
      lastVisited := JsObject.empty, showQuickAccess := false } 3
    (by decide) (by decide) (by decide) (by decide)).2.2

/-! ## Favourites: `toggleFavorite` -/

/-- C5: for every preference record whose favorites is a set (no id twice) and
every service id `x`, calling `toggleFavorite x` twice in a row restores the
prior favorites set exactly: the ids in favorites after the second call are
the ids in it before the first call, each still once. The array is the prior
array when `x` was not a favourite, and the prior array with `x` moved to the
end when it was. -/
theorem toggleFavorite_twice_perm (p : UserPreferences) (x : String)
    (h : p.favorites.Nodup) :
    (∀ y : String,
        y ∈ (toggleFavorite (toggleFavorite p x) x).favorites ↔ y ∈ p.favorites) ∧
      (toggleFavorite (toggleFavorite p x) x).favorites.Nodup ∧
      (toggleFavorite (toggleFavorite p x) x).favorites.Perm p.favorites ∧
      (x ∉ p.favorites →
        (toggleFavorite (toggleFavorite p x) x).favorites = p.favorites) ∧
      (x ∈ p.favorites →
        (toggleFavorite (toggleFavorite p x) x).favorites = p.favorites.erase x ++ [x]) := by
  have hperm := toggleFavorite_twice_favorites_perm p x (List.nodup_iff_count_le_one.1 h x)
  refine ⟨fun y => hperm.mem_iff, hperm.nodup_iff.2 h, hperm, ?_, ?_⟩
  · intro hx
    rw [toggleFavorite_twice_favorites p x (List.nodup_iff_count_le_one.1 h x), if_neg hx]
  · intro hx
    rw [toggleFavorite_twice_favorites p x (List.nodup_iff_count_le_one.1 h x), if_pos hx]

theorem toggleFavorite_twice_perm_witness :
    (toggleFavorite (toggleFavorite defaultPreferences "food-pantry") "healthcare").favorites.Nodup ∧
      (toggleFavorite (toggleFavorite
          (toggleFavorite (toggleFavorite defaultPreferences "food-pantry") "healthcare")
          "food-pantry") "food-pantry").favorites.Perm
        (toggleFavorite (toggleFavorite defaultPreferences "food-pantry")
          "healthcare").favorites :=
  ⟨by decide,
    (toggleFavorite_twice_perm
      (toggleFavorite (toggleFavorite defaultPreferences "food-pantry") "healthcare")
      "food-pantry" (by decide)).2.2.1⟩

/-- C6: for every preference record whose favorites is a set (no id twice) and
every service id `x`, after `toggleFavorite x` the id `x` is in favorites if
and only if it was not in favorites before the call (present: removed,
absent: added), and the membership of every other id is unchanged. -/
theorem toggleFavorite_mem (p : UserPreferences) (x : String)
    (h : p.favorites.Nodup) :
    (x ∈ (toggleFavorite p x).favorites ↔ x ∉ p.favorites) ∧
      (∀ y : String, y ≠ x → (y ∈ (toggleFavorite p x).favorites ↔ y ∈ p.favorites)) :=
  toggleFavorite_mem_of_count_le p x (List.nodup_iff_count_le_one.1 h x)

theorem toggleFavorite_mem_witness :
    ("food-pantry" ∈ (toggleFavorite
        (toggleFavorite (toggleFavorite defaultPreferences "food-pantry") "healthcare")
        "food-pantry").favorites ↔
      "food-pantry" ∉ (toggleFavorite (toggleFavorite defaultPreferences "food-pantry")
        "healthcare").favorites) ∧
    ("education" ∈ (toggleFavorite
        (toggleFavorite (toggleFavorite defaultPreferences "food-pantry") "healthcare")
        "education").favorites ↔
      "education" ∉ (toggleFavorite (toggleFavorite defaultPreferences "food-pantry")
        "healthcare").favorites) :=
  ⟨(toggleFavorite_mem
      (toggleFavorite (toggleFavorite defaultPreferences "food-pantry") "healthcare")
      "food-pantry" (by decide)).1,
   (toggleFavorite_mem
      (toggleFavorite (toggleFavorite defaultPreferences "food-pantry") "healthcare")
      "education" (by decide)).1⟩

/-- C7: for every preference record and every service id `x`,
`toggleFavorite x` leaves `visitCounts` unchanged. -/
theorem toggleFavorite_visitCounts (p : UserPreferences) (x : String) :
    (toggleFavorite p x).visitCounts = p.visitCounts := by
  by_cases h : arrayIndexOf p.favorites x > -1 <;> simp [toggleFavorite, h]

/-! ## Visit tracking: `trackPageVisit` -/

/-- C8: for every preference record and every location that maps to a page
key `k`, `trackPageVisit` sets `visitCounts[k]` to its previous value plus 1,
or to 1 if `k` was absent; from the default (empty) record, one visit each to
"walkin-services", "appointment-services" and "emergency-shelter" leaves each
of the three counters equal to 1. -/
theorem trackPageVisit_increments :
    (∀ (p : UserPreferences) (currentPage now k : String),
        getPageKey currentPage = some k →
        (∀ v, p.visitCounts.get k = some v →
          (trackPageVisit p currentPage now).visitCounts.get k = some (v + 1)) ∧
        (p.visitCounts.get k = none →
          (trackPageVisit p currentPage now).visitCounts.get k = some 1)) ∧
      (trackPageVisits defaultPreferences
        [("walkin-services", "2025-09-24T10:00:00.000Z"),
         ("appointment-services", "2025-09-24T10:01:00.000Z"),
         ("emergency-shelter", "2025-09-24T10:02:00.000Z")]).visitCounts.get
          "walkin-services" = some 1 ∧
      (trackPageVisits defaultPreferences
        [("walkin-services", "2025-09-24T10:00:00.000Z"),
         ("appointment-services", "2025-09-24T10:01:00.000Z"),
         ("emergency-shelter", "2025-09-24T10:02:00.000Z")]).visitCounts.get
          "appointment-services" = some 1 ∧
      (trackPageVisits defaultPreferences
        [("walkin-services", "2025-09-24T10:00:00.000Z"),
         ("appointment-services", "2025-09-24T10:01:00.000Z"),
         ("emergency-shelter", "2025-09-24T10:02:00.000Z")]).visitCounts.get
          "emergency-shelter" = some 1 := by
  refine ⟨?_, by decide, by decide, by decide⟩
  intro p currentPage now k hk
  have hget : (trackPageVisit p currentPage now).visitCounts.get k =
      some (orZero (p.visitCounts.get k) + 1) := by
    simp only [trackPageVisit, hk]
    exact JsObject.get_set_same _ _ _
  refine ⟨fun v hv => ?_, fun hnone => ?_⟩
  · rw [hget, hv, orZero_eq]
    rfl
  · rw [hget, hnone]
    rfl

theorem trackPageVisit_increments_witness :
    getPageKey "/pages/services/walkin-services.html" = some "walkin-services" ∧
      (trackPageVisit
        { favorites := [], visitCounts := JsObject.empty.set "walkin-services" 4,
          lastVisited := JsObject.empty, showQuickAccess := false }
        "/pages/services/walkin-services.html" "2025-09-24T10:00:00.000Z").visitCounts.get
          "walkin-services" = some (4 + 1) :=
  ⟨by decide,
    (trackPageVisit_increments.1
      { favorites := [], visitCounts := JsObject.empty.set "walkin-services" 4,
        lastVisited := JsObject.empty, showQuickAccess := false }
      "/pages/services/walkin-services.html" "2025-09-24T10:00:00.000Z" "walkin-services"
      (by decide)).1 4 (by decide)⟩

/-- C9: for every preference record and every location that maps to a page
key, after `trackPageVisit` the flag `showQuickAccess` is true whenever
`visitCounts` then holds at least 3 (distinct) page keys, and otherwise keeps
its previous value; starting from the default record it is still false after
visits to two distinct page keys and becomes true on the visit to a third. -/
theorem trackPageVisit_enables_at_three :
    (∀ (p : UserPreferences) (currentPage now k : String),
        getPageKey currentPage = some k →
        (trackPageVisit p currentPage now).visitCounts.keys.Nodup ∧
        (3 ≤ (trackPageVisit p currentPage now).visitCounts.keys.length →
          (trackPageVisit p currentPage now).showQuickAccess = true) ∧
        ((trackPageVisit p currentPage now).visitCounts.keys.length < 3 →
          (trackPageVisit p currentPage now).showQuickAccess = p.showQuickAccess)) ∧
      (trackPageVisits defaultPreferences
        [("walkin-services", "2025-09-24T10:00:00.000Z"),
         ("appointment-services", "2025-09-24T10:01:00.000Z")]).showQuickAccess = false ∧
      (trackPageVisits defaultPreferences
        [("walkin-services", "2025-09-24T10:00:00.000Z"),
         ("appointment-services", "2025-09-24T10:01:00.000Z"),
         ("emergency-shelter", "2025-09-24T10:02:00.000Z")]).showQuickAccess = true := by
  refine ⟨?_, by decide, by decide⟩
  intro p currentPage now k hk
  refine ⟨JsObject.nodup_keys _, ?_, ?_⟩
  · intro h3
    simp only [trackPageVisit, hk] at h3 ⊢
    simp [h3]
  · intro h3
    simp only [trackPageVisit, hk] at h3 ⊢
    have h3' : ¬ (3 ≤ ((p.visitCounts.set k
        (orZero (p.visitCounts.get k) + 1)).keys.length)) := by omega
    simp [h3']

theorem trackPageVisit_enables_at_three_witness :
    getPageKey "/pages/services/group-meetings.html" = some "group-meetings" ∧
      (trackPageVisit
        (trackPageVisits defaultPreferences
          [("walkin-services", "2025-09-24T10:00:00.000Z"),
           ("appointment-services", "2025-09-24T10:01:00.000Z")])
        "/pages/services/group-meetings.html" "2025-09-24T10:02:00.000Z").showQuickAccess
          = true :=
  ⟨by decide,
    (trackPageVisit_enables_at_three.1
      (trackPageVisits defaultPreferences
        [("walkin-services", "2025-09-24T10:00:00.000Z"),
         ("appointment-services", "2025-09-24T10:01:00.000Z")])
      "/pages/services/group-meetings.html" "2025-09-24T10:02:00.000Z" "group-meetings"
      (by decide)).2.1 (by decide)⟩

/-- C10 (latch): for every preference record in which `showQuickAccess` is
true and every finite sequence of `trackPageVisit` calls on any locations,
`showQuickAccess` is still true after the sequence. -/
theorem trackPageVisits_latch (p : UserPreferences) (visits : List (String × String))
    (h : p.showQuickAccess = true) : (trackPageVisits p visits).showQuickAccess = true := by
  induction visits generalizing p with
  | nil => exact h
  | cons v vs ih =>
    exact ih (trackPageVisit p v.1 v.2) (trackPageVisit_showQuickAccess p v.1 v.2 h)

theorem trackPageVisits_latch_witness :
    (trackPageVisits
      { favorites := [], visitCounts := JsObject.empty, lastVisited := JsObject.empty,
        showQuickAccess := true }
      [("/index.html", "2025-09-24T10:00:00.000Z"),
       ("/pages/services/walkin-services.html", "2025-09-24T10:01:00.000Z")]).showQuickAccess
        = true :=
  trackPageVisits_latch
    { favorites := [], visitCounts := JsObject.empty, lastVisited := JsObject.empty,
      showQuickAccess := true }
    [("/index.html", "2025-09-24T10:00:00.000Z"),
     ("/pages/services/walkin-services.html", "2025-09-24T10:01:00.000Z")] rfl

/-! ## Counters never decrease -/

theorem JsObject.getEntries_setEntries_ne {α : Type} (k k' : String) (v : α)
    (l : List (String × α)) (h : k' ≠ k) :
    JsObject.getEntries k (JsObject.setEntries k' v l) = JsObject.getEntries k l := by
  induction l with
  | nil => simp [JsObject.setEntries, JsObject.getEntries, h]
  | cons hd tl ih =>
    obtain ⟨k₁, v₁⟩ := hd
    by_cases h₁ : k₁ = k'
    · have h₂ : ¬ k₁ = k := fun e => h (h₁.symm.trans e)
      simp [JsObject.setEntries, JsObject.getEntries, h₁, h₂, h]
    · by_cases h₂ : k₁ = k
      · subst h₂
        simp [JsObject.setEntries, JsObject.getEntries, h₁]
      · simp [JsObject.setEntries, JsObject.getEntries, h₁, h₂, ih]

theorem JsObject.get_set_ne {α : Type} (o : JsObject α) (k k' : String) (v : α) (h : k' ≠ k) :
    (o.set k' v).get k = o.get k :=
  JsObject.getEntries_setEntries_ne k k' v o.entries h

theorem trackPageVisit_count_le (p : UserPreferences) (currentPage now k : String) (v : Nat)
    (h : p.visitCounts.get k = some v) :
    ∃ v', (trackPageVisit p currentPage now).visitCounts.get k = some v' ∧ v ≤ v' := by
  unfold trackPageVisit
  split
  · rename_i pageKey _
    by_cases hk : pageKey = k
    · subst hk
      refine ⟨orZero (p.visitCounts.get pageKey) + 1, JsObject.get_set_same _ _ _, ?_⟩
      rw [h, orZero_eq]
      simp
    · exact ⟨v, by simpa [JsObject.get_set_ne _ _ _ _ hk] using h, le_refl v⟩
  · exact ⟨v, h, le_refl v⟩

theorem trackPageVisits_count_le (p : UserPreferences) (visits : List (String × String))
    (k : String) (v : Nat) (h : p.visitCounts.get k = some v) :
    ∃ v', (trackPageVisits p visits).visitCounts.get k = some v' ∧ v ≤ v' := by
  induction visits generalizing p v with
  | nil => exact ⟨v, h, le_refl v⟩
  | cons a rest ih =>
    obtain ⟨v₁, h₁, hle₁⟩ := trackPageVisit_count_le p a.1 a.2 k v h
    obtain ⟨v₂, h₂, hle₂⟩ := ih (trackPageVisit p a.1 a.2) v₁ h₁
    exact ⟨v₂, h₂, le_trans hle₁ hle₂⟩

/-- C11 (monotonicity): for every preference record and every finite sequence
of `trackPageVisit` calls, the count of each page key after the sequence is at
least its count before, and a key present before is present after, with a
value at least the prior one. -/
theorem trackPageVisits_monotone (p : UserPreferences) (visits : List (String × String)) :
    (∀ k : String, orZero (p.visitCounts.get k) ≤
        orZero ((trackPageVisits p visits).visitCounts.get k)) ∧
      (∀ (k : String) (v : Nat), p.visitCounts.get k = some v →
        ∃ v', (trackPageVisits p visits).visitCounts.get k = some v' ∧ v ≤ v') := by
  refine ⟨fun k => ?_, fun k v h => trackPageVisits_count_le p visits k v h⟩
  cases h : p.visitCounts.get k with
  | none => simp [orZero]
  | some v =>
    obtain ⟨v', h', hle⟩ := trackPageVisits_count_le p visits k v h
    rw [h', orZero_eq, orZero_eq]
    exact hle

theorem trackPageVisits_monotone_witness :
    ∃ v', (trackPageVisits
        { favorites := [], visitCounts := JsObject.empty.set "walkin-services" 4,
          lastVisited := JsObject.empty, showQuickAccess := false }
        [("/pages/services/walkin-services.html", "2025-09-24T10:00:00.000Z"),
         ("/pages/services/group-meetings.html", "2025-09-24T10:01:00.000Z")]).visitCounts.get
          "walkin-services" = some v' ∧ 4 ≤ v' :=
  (trackPageVisits_monotone
    { favorites := [], visitCounts := JsObject.empty.set "walkin-services" 4,
      lastVisited := JsObject.empty, showQuickAccess := false }
    [("/pages/services/walkin-services.html", "2025-09-24T10:00:00.000Z"),
     ("/pages/services/group-meetings.html", "2025-09-24T10:01:00.000Z")]).2
    "walkin-services" 4 (by decide)

/-! ## Visibility gate: `updateQuickAccessDisplay` -/

/-- C12 (visibility gate): for every preference record, after
`updateQuickAccessDisplay` the Quick Access section is shown (`display` is
"block") only if `showQuickAccess` is true and (favorites is non-empty or
`visitCounts` has at least one entry); when the section exists and either
condition fails it is hidden (`display` is "none"), and when both hold it is
shown. -/
theorem updateQuickAccessDisplay_gate (p : UserPreferences) (quickAccessSection : Option String) :
    (updateQuickAccessDisplay p quickAccessSection = some "block" →
        p.showQuickAccess = true ∧ (p.favorites ≠ [] ∨ p.visitCounts.keys ≠ [])) ∧
      (∀ display : String, quickAccessSection = some display →
        ¬ (p.showQuickAccess = true ∧ (p.favorites ≠ [] ∨ p.visitCounts.keys ≠ [])) →
        updateQuickAccessDisplay p quickAccessSection = some "none") ∧
      (∀ display : String, quickAccessSection = some display →
        p.showQuickAccess = true → (p.favorites ≠ [] ∨ p.visitCounts.keys ≠ []) →
        updateQuickAccessDisplay p quickAccessSection = some "block") := by
  have hcond : (p.showQuickAccess && shouldShowQuickAccess p) = true ↔
      (p.showQuickAccess = true ∧ (p.favorites ≠ [] ∨ p.visitCounts.keys ≠ [])) := by
    simp [shouldShowQuickAccess, List.length_pos]
  refine ⟨?_, ?_, ?_⟩
  · intro h
    cases quickAccessSection with
    | none => simp [updateQuickAccessDisplay] at h
    | some d =>
      by_cases hc : (p.showQuickAccess && shouldShowQuickAccess p) = true
      · exact hcond.1 hc
      · simp [updateQuickAccessDisplay, hc] at h
  · intro d hd hn
    subst hd
    have hc : ¬ (p.showQuickAccess && shouldShowQuickAccess p) = true := fun hc => hn (hcond.1 hc)
    simp [updateQuickAccessDisplay, hc]
  · intro d hd h1 h2
    subst hd
    have hc : (p.showQuickAccess && shouldShowQuickAccess p) = true := hcond.2 ⟨h1, h2⟩
    simp [updateQuickAccessDisplay, hc]

theorem updateQuickAccessDisplay_gate_witness :
    updateQuickAccessDisplay
      { favorites := ["food-pantry"], visitCounts := JsObject.empty,
        lastVisited := JsObject.empty, showQuickAccess := false } (some "block") = some "none" :=
  (updateQuickAccessDisplay_gate
    { favorites := ["food-pantry"], visitCounts := JsObject.empty,
      lastVisited := JsObject.empty, showQuickAccess := false } (some "block")).2.1
    "block" rfl (by decide)

/-! ## Loading the persisted record -/

theorem JsObject.getEntries_eq_none {α : Type} (k : String) (l : List (String × α))
    (h : k ∉ l.map Prod.fst) : JsObject.getEntries k l = none := by
  induction l with
  | nil => rfl
  | cons hd tl ih =>
    obtain ⟨k₁, v₁⟩ := hd
    have h₁ : ¬ k₁ = k := fun e => h (by simp [e])
    have h₂ : k ∉ tl.map Prod.fst := fun hm => h (by simp at hm ⊢; exact Or.inr hm)
    simp [JsObject.getEntries, h₁, ih h₂]

theorem get_foldl_set {α : Type} (l : List (String × α)) (a : JsObject α) (k : String)
    (hl : (l.map Prod.fst).Nodup) :
    (l.foldl (fun o kv => o.set kv.1 kv.2) a).get k =
      (JsObject.getEntries k l).or (a.get k) := by
  induction l generalizing a with
  | nil => rfl
  | cons hd tl ih =>
    obtain ⟨k₁, v₁⟩ := hd
    have hnd : k₁ ∉ tl.map Prod.fst ∧ (tl.map Prod.fst).Nodup := List.nodup_cons.1 hl
    rw [List.foldl_cons, ih (a.set k₁ v₁) hnd.2]
    by_cases h₁ : k₁ = k
    · subst h₁
      rw [JsObject.getEntries_eq_none k₁ tl hnd.1]
      simp [JsObject.getEntries, JsObject.get_set_same]
    · simp only [JsObject.getEntries, h₁, if_false]
      cases JsObject.getEntries k tl with
      | none => exact JsObject.get_set_ne a k k₁ v₁ h₁
      | some x => rfl

theorem get_spread (a b : JsObject Json) (k : String) :
    (spread a b).get k = (b.get k).or (a.get k) :=
  get_foldl_set b.entries a k b.nodupKeys

/-- C13: for a freshly constructed store (the record is the default one),
`loadUserPreferences` on missing persisted data or on persisted content that
does not parse (truncated content for instance) yields the default record
(favorites empty, visitCounts empty, lastVisited empty, showQuickAccess
false); the same holds when the storage read itself throws, and for no record
and no persisted state does an exception escape the call. -/
theorem loadUserPreferences_defaults :
    loadUserPreferences defaultPreferences.toJs Persisted.missing =
        Except.ok defaultPreferences.toJs ∧
      (∀ saved : String,
        loadUserPreferences defaultPreferences.toJs (Persisted.unparsable saved) =
          Except.ok defaultPreferences.toJs) ∧
      loadUserPreferences defaultPreferences.toJs
          (Persisted.unparsable "\x7b\"favorites\":[\"food-pan") =
        Except.ok defaultPreferences.toJs ∧
      loadUserPreferences defaultPreferences.toJs Persisted.unavailable =
        Except.ok defaultPreferences.toJs ∧
      (defaultPreferences.toJs.get "favorites" = some (Json.arr []) ∧
        defaultPreferences.toJs.get "visitCounts" = some (Json.obj []) ∧
        defaultPreferences.toJs.get "lastVisited" = some (Json.obj []) ∧
        defaultPreferences.toJs.get "showQuickAccess" = some (Json.bool false)) ∧
      (∀ (current : JsObject Json) (persisted : Persisted),
        ∃ loaded, loadUserPreferences current persisted = Except.ok loaded) := by
  have hun : ∀ saved : String,
      loadUserPreferences defaultPreferences.toJs (Persisted.unparsable saved) =
        Except.ok defaultPreferences.toJs := by
    intro saved
    by_cases h : saved = "" <;> simp [loadUserPreferences, tryLoadUserPreferences, h]
  refine ⟨rfl, hun, hun _, rfl, ⟨rfl, rfl, rfl, rfl⟩, ?_⟩
  intro current persisted
  unfold loadUserPreferences
  cases tryLoadUserPreferences current persisted with
  | ok loaded => exact ⟨loaded, rfl⟩
  | error e => exact ⟨current, rfl⟩

/-- C14 (as stated, refuted): the persisted value `malformedValue` parses and
violates the shape of a preference record (`favorites` is a string, a counter
is negative), and from the default record `loadUserPreferences` does not fall
back to the defaults: the loaded record holds the malformed `favorites` and
`visitCounts`. -/
theorem loadUserPreferences_keeps_malformed :
    conformsToShape malformedValue = false ∧
      (∃ loaded,
        loadUserPreferences defaultPreferences.toJs
          (Persisted.parsed malformedSaved malformedValue) = Except.ok loaded ∧
        loaded.get "favorites" = some (Json.str "food-pantry") ∧
        loaded.get "visitCounts" =
          some (Json.obj [("walkin-services", Json.num (-2))])) ∧
      loadUserPreferences defaultPreferences.toJs
          (Persisted.parsed malformedSaved malformedValue) ≠
        Except.ok defaultPreferences.toJs := by
  refine ⟨rfl, ⟨_, rfl, rfl, rfl⟩, ?_⟩
  intro h
  have h₁ : (match loadUserPreferences defaultPreferences.toJs
      (Persisted.parsed malformedSaved malformedValue) with
      | Except.ok loaded => loaded.get "favorites"
      | Except.error _ => none) = some (Json.str "food-pantry") := rfl
  rw [h] at h₁
  have h₂ : defaultPreferences.toJs.get "favorites" = some (Json.arr []) := rfl
  simp only [h₂] at h₁
  cases h₁

/-- C14 (amended): for every record in memory and every non-empty persisted
text that parses, whether or not the parsed value has the shape of a
preference record, `loadUserPreferences` applies no check and no fallback: the
loaded record holds, under every property name of the parsed value, the
persisted value, and keeps the in-memory value only under the names the parsed
value lacks. -/
theorem loadUserPreferences_merges (current : JsObject Json) (saved : String) (value : Json)
    (h : saved ≠ "") :
    ∃ loaded, loadUserPreferences current (Persisted.parsed saved value) = Except.ok loaded ∧
      (∀ (k : String) (x : Json), value.ownProperties.get k = some x →
        loaded.get k = some x) ∧
      (∀ k : String, value.ownProperties.get k = none → loaded.get k = current.get k) := by
  refine ⟨spread current value.ownProperties, ?_, ?_, ?_⟩
  · simp [loadUserPreferences, tryLoadUserPreferences, h]
  · intro k x hx
    rw [get_spread, hx, Option.or_some]
  · intro k hk
    rw [get_spread, hk, Option.none_or]

theorem loadUserPreferences_merges_witness :
    ∃ loaded, loadUserPreferences defaultPreferences.toJs
        (Persisted.parsed malformedSaved malformedValue) = Except.ok loaded ∧
      (∀ (k : String) (x : Json), malformedValue.ownProperties.get k = some x →
        loaded.get k = some x) ∧
      (∀ k : String, malformedValue.ownProperties.get k = none →
        loaded.get k = defaultPreferences.toJs.get k) :=
  loadUserPreferences_merges defaultPreferences.toJs malformedSaved malformedValue (by decide)

/-! ## Reset and the invariants of the record -/

theorem JsObject.keys_set {α : Type} (o : JsObject α) (k : String) (v : α) :
    (o.set k v).keys = if k ∈ o.keys then o.keys else o.keys ++ [k] := by
  obtain ⟨l, hl⟩ := o
  show (JsObject.setEntries k v l).map Prod.fst =
    if k ∈ l.map Prod.fst then l.map Prod.fst else l.map Prod.fst ++ [k]
  clear hl
  induction l with
  | nil => simp [JsObject.setEntries]
  | cons hd tl ih =>
    obtain ⟨k₁, v₁⟩ := hd
    by_cases h : k₁ = k
    · simp [JsObject.setEntries, h]
    · have h' : ¬ k = k₁ := fun e => h e.symm
      simp only [JsObject.setEntries, h, if_false, List.map_cons, ih, List.mem_cons, h', false_or]
      split <;> simp

theorem getPageKey_mem (url k : String) (h : getPageKey url = some k) : k ∈ pageKeys := by
  unfold getPageKey at h
  split_ifs at h <;> simp_all [pageKeys]

theorem toggleFavorite_frame (p : UserPreferences) (x : String) :
    (toggleFavorite p x).visitCounts = p.visitCounts ∧
      (toggleFavorite p x).lastVisited = p.lastVisited ∧
      (toggleFavorite p x).showQuickAccess = p.showQuickAccess := by
  by_cases h : arrayIndexOf p.favorites x > -1 <;> simp [toggleFavorite, h]

theorem trackPageVisit_favorites (p : UserPreferences) (currentPage now : String) :
    (trackPageVisit p currentPage now).favorites = p.favorites := by
  unfold trackPageVisit
  split <;> rfl

theorem all_pageKeys_set {α : Type} (o : JsObject α) (k : String) (v : α)
    (ho : o.keys.all (fun k => pageKeys.contains k) = true) (hk : k ∈ pageKeys) :
    (o.set k v).keys.all (fun k => pageKeys.contains k) = true := by
  rw [JsObject.keys_set]
  split
  · exact ho
  · rw [List.all_append, ho]
    simpa using hk

/-- C15 (as stated, refuted): when the user cancels the confirmation dialog,
`resetQuickAccess` leaves a record with one favourite and the flag set as it
is, so the record is not replaced by the defaults. -/
theorem resetQuickAccess_cancelled :
    (resetQuickAccess
        { favorites := ["food-pantry"], visitCounts := JsObject.empty.set "walkin-services" 2,
          lastVisited := JsObject.empty.set "walkin-services" "2025-09-24T10:00:00.000Z",
          showQuickAccess := true } false).favorites = ["food-pantry"] ∧
      (resetQuickAccess
        { favorites := ["food-pantry"], visitCounts := JsObject.empty.set "walkin-services" 2,
          lastVisited := JsObject.empty.set "walkin-services" "2025-09-24T10:00:00.000Z",
          showQuickAccess := true } false).visitCounts.get "walkin-services" = some 2 ∧
      (resetQuickAccess
        { favorites := ["food-pantry"], visitCounts := JsObject.empty.set "walkin-services" 2,
          lastVisited := JsObject.empty.set "walkin-services" "2025-09-24T10:00:00.000Z",
          showQuickAccess := true } false).showQuickAccess = true := by
  decide

/-- C15 (amended): for every preference record, `resetQuickAccess` replaces the
record with the all-empty defaults (favorites = [], visitCounts = {},
lastVisited = {}, showQuickAccess = false) when the user confirms the dialog,
and leaves the record unchanged when the user cancels it. -/
theorem resetQuickAccess_confirmed (p : UserPreferences) :
    resetQuickAccess p true = defaultPreferences ∧
      (resetQuickAccess p true).favorites = [] ∧
      (resetQuickAccess p true).visitCounts.keys = [] ∧
      (resetQuickAccess p true).lastVisited.keys = [] ∧
      (resetQuickAccess p true).showQuickAccess = false ∧
      resetQuickAccess p false = p :=
  ⟨rfl, rfl, rfl, rfl, rfl, rfl⟩

/-- C16: favorites contains only identifiers present in the static catalog:
this holds for the default record and is preserved by every mutating
operation, that is by `toggleFavorite` for every service id argument (the id
of a catalog entry, which is what every caller passes), by `trackPageVisit`
and by `resetQuickAccess`. -/
theorem favoritesInCatalog_preserved (p : UserPreferences)
    (h : favoritesInCatalog p = true) :
    favoritesInCatalog defaultPreferences = true ∧
      (∀ x : String, x ∈ availableServices.map Service.id →
        favoritesInCatalog (toggleFavorite p x) = true) ∧
      (∀ currentPage now : String,
        favoritesInCatalog (trackPageVisit p currentPage now) = true) ∧
      (∀ confirmed : Bool, favoritesInCatalog (resetQuickAccess p confirmed) = true) := by
  refine ⟨by decide, ?_, ?_, ?_⟩
  · intro x hx
    unfold favoritesInCatalog at h ⊢
    rw [List.all_eq_true] at h ⊢
    rw [toggleFavorite_favorites]
    intro y hy
    split at hy
    · exact h y (List.mem_of_mem_erase hy)
    · rcases List.mem_append.1 hy with hy | hy
      · exact h y hy
      · rw [List.mem_singleton.1 hy]
        simpa using hx
  · intro currentPage now
    unfold favoritesInCatalog
    rw [trackPageVisit_favorites]
    exact h
  · intro confirmed
    cases confirmed
    · exact h
    · rfl

theorem favoritesInCatalog_preserved_witness :
    favoritesInCatalog
      (toggleFavorite
        { favorites := ["food-pantry"], visitCounts := JsObject.empty,
          lastVisited := JsObject.empty, showQuickAccess := false } "healthcare") = true :=
  (favoritesInCatalog_preserved
    { favorites := ["food-pantry"], visitCounts := JsObject.empty,
      lastVisited := JsObject.empty, showQuickAccess := false } (by decide)).2.1
    "healthcare" (by decide)

/-- C17: every key of `visitCounts` and of `lastVisited` is one of the six
fixed page keys: `getPageKey` returns one of them or none, the invariant holds
for the default record, and it is preserved by `trackPageVisit` for every
location string, by `toggleFavorite` and by `resetQuickAccess`. -/
theorem keysArePageKeys_preserved (p : UserPreferences) (h : keysArePageKeys p = true) :
    (∀ url k : String, getPageKey url = some k → k ∈ pageKeys) ∧
      keysArePageKeys defaultPreferences = true ∧
      (∀ currentPage now : String,
        keysArePageKeys (trackPageVisit p currentPage now) = true) ∧
      (∀ x : String, keysArePageKeys (toggleFavorite p x) = true) ∧
      (∀ confirmed : Bool, keysArePageKeys (resetQuickAccess p confirmed) = true) := by
  refine ⟨getPageKey_mem, by decide, ?_, ?_, ?_⟩
  · intro currentPage now
    unfold trackPageVisit
    cases hk : getPageKey currentPage with
    | none => exact h
    | some pageKey =>
      have hmem := getPageKey_mem currentPage pageKey hk
      unfold keysArePageKeys at h ⊢
      rw [Bool.and_eq_true] at h ⊢
      exact ⟨all_pageKeys_set _ _ _ h.1 hmem, all_pageKeys_set _ _ _ h.2 hmem⟩
  · intro x
    obtain ⟨h₁, h₂, _⟩ := toggleFavorite_frame p x
    unfold keysArePageKeys
    rw [h₁, h₂]
    exact h
  · intro confirmed
    cases confirmed
    · exact h
    · rfl

theorem keysArePageKeys_preserved_witness :
    keysArePageKeys
      (trackPageVisit
        { favorites := [], visitCounts := JsObject.empty.set "walkin-services" 2,
          lastVisited := JsObject.empty.set "walkin-services" "2025-09-24T10:00:00.000Z",
          showQuickAccess := false }
        "/pages/services/group-meetings.html" "2025-09-24T10:05:00.000Z") = true :=
  (keysArePageKeys_preserved
    { favorites := [], visitCounts := JsObject.empty.set "walkin-services" 2,
      lastVisited := JsObject.empty.set "walkin-services" "2025-09-24T10:00:00.000Z",
      showQuickAccess := false } (by decide)).2.2.1
    "/pages/services/group-meetings.html" "2025-09-24T10:05:00.000Z"

/-! ## Consequences of the six-entry catalog -/

/-- C18: with the compiled-in catalog of six entries, the truncation to 6 in
`getQuickAccessItems` drops nothing: for every preference record the favourite
list is a sublist of the catalog, the frequent tier a rearrangement of one,
the two are disjoint, their concatenation has at most 6 entries and is the
result, and so every favourite catalog entry and every non-favourite entry
with visit count at least 2 is in the result. -/
theorem getQuickAccessItems_drops_nothing (p : UserPreferences) :
    availableServices.length = 6 ∧
      (favoriteItems p).Sublist availableServices ∧
      (frequentItems p).Subperm availableServices ∧
      (∀ s ∈ favoriteItems p, s ∉ frequentItems p) ∧
      (favoriteItems p ++ frequentItems p).length ≤ 6 ∧
      getQuickAccessItems p = favoriteItems p ++ frequentItems p ∧
      (∀ s ∈ availableServices, s.id ∈ p.favorites → s ∈ getQuickAccessItems p) ∧
      (∀ s ∈ availableServices, s.id ∉ p.favorites →
        2 ≤ orZero (p.visitCounts.get (getServicePageKey s.id)) →
        s ∈ getQuickAccessItems p) := by
  refine ⟨rfl, List.filter_sublist _, ?_, ?_, favorite_frequent_length p,
    getQuickAccessItems_eq_append p, ?_, ?_⟩
  · exact (frequentItems_perm p).subperm.trans (List.filter_sublist _).subperm
  · intro s hs hq
    exact (mem_frequentItems.1 hq).2.2 (mem_favoriteItems.1 hs).2
  · intro s hs hfav
    rw [getQuickAccessItems_eq_append]
    exact List.mem_append_left _ (mem_favoriteItems.2 ⟨hs, hfav⟩)
  · intro s hs hfav hcount
    rw [getQuickAccessItems_eq_append]
    exact List.mem_append_right _ (mem_frequentItems.2 ⟨hs, hcount, hfav⟩)

theorem getQuickAccessItems_drops_nothing_witness :
    Service.mk "education" "Education" "Classes, tutoring, and skill development"
        "pages/services/education-classes.html" 5 ∈
      getQuickAccessItems
        { favorites := ["education", "food-pantry"],
          visitCounts := JsObject.empty.set "group-meetings" 7,
          lastVisited := JsObject.empty, showQuickAccess := true } :=
  (getQuickAccessItems_drops_nothing
    { favorites := ["education", "food-pantry"],
      visitCounts := JsObject.empty.set "group-meetings" 7,
      lastVisited := JsObject.empty, showQuickAccess := true }).2.2.2.2.2.2.1
    _ (by decide) (by decide)

/-- C19: favorites holds no identifier twice: this holds for the default
record and, for every record satisfying it and every service id `x`, it still
holds after `toggleFavorite x`. -/
theorem toggleFavorite_nodup (p : UserPreferences) (x : String) (h : p.favorites.Nodup) :
    defaultPreferences.favorites.Nodup ∧ (toggleFavorite p x).favorites.Nodup := by
  refine ⟨List.nodup_nil, ?_⟩
  rw [toggleFavorite_favorites]
  split
  · exact h.erase x
  · rename_i hx
    exact List.Nodup.append h (List.nodup_singleton x) (by simpa using hx)

theorem toggleFavorite_nodup_witness :
    (toggleFavorite
      { favorites := ["food-pantry", "healthcare"], visitCounts := JsObject.empty,
        lastVisited := JsObject.empty, showQuickAccess := false } "education").favorites.Nodup :=
  (toggleFavorite_nodup
    { favorites := ["food-pantry", "healthcare"], visitCounts := JsObject.empty,
      lastVisited := JsObject.empty, showQuickAccess := false } "education" (by decide)).2

/-- C20: the visibility gate does not imply a non-empty ranking: for the
record with showQuickAccess = true, favorites = [] and
visitCounts = {"walkin-services": 1}, `updateQuickAccessDisplay` shows the
section while `getQuickAccessItems` returns the empty list. -/
theorem shown_with_empty_ranking :
    ∃ p : UserPreferences,
      p.showQuickAccess = true ∧ p.favorites = [] ∧
      p.visitCounts.entries = [("walkin-services", 1)] ∧
      updateQuickAccessDisplay p (some "none") = some "block" ∧
      getQuickAccessItems p = [] :=
  ⟨{ favorites := [], visitCounts := JsObject.empty.set "walkin-services" 1,
     lastVisited := JsObject.empty.set "walkin-services" "2025-09-24T10:00:00.000Z",
     showQuickAccess := true },
    by decide, by decide, by decide, by decide, by decide⟩

end QuickAccess
